import Mathlib

/-!
Shallow embedding of `src/code-review-chat/CodeReviewChat.ts` from
vscode-github-triage-actions: the code-review chat announcement publisher
(`CodeReviewChat.run`), the stale-message reconciler
(`CodeReviewChatDeleter.run`), and the channel pagination helper
(`listAllMemberships`) together with `Chatter.getChat`.

External I/O (Slack and GitHub) is modelled by explicit inputs: the fetched
channel history, a reply-thread fetch oracle keyed by message timestamp, a
delete-success oracle, and the paginated conversation-list results.
-/

namespace CRC

/-- `SlackReaction` from the source: `{name, count, users}`. -/
structure SlackReaction where
  name : String
  count : Nat
  users : List String
deriving DecidableEq, Repr

/-- The two non-normal message subtypes named in the source's `SlackMessage`
interface: `'tombstone' | 'channel_join' | undefined`. -/
inductive MsgSubtype where
  | tombstone
  | channel_join
deriving DecidableEq, Repr

/-- `SlackMessage` from the source. `subtype = none` models `undefined`
(a normal message); `reply_count : Option Nat` models the optional field
(JS truthiness of `message.reply_count` is `reply_count.getD 0 ≠ 0`);
`reactions : Option (List SlackReaction)` models the optional array. -/
structure SlackMessage where
  subtype : Option MsgSubtype
  text : String
  reply_count : Option Nat
  ts : String
  reactions : Option (List SlackReaction)
deriving DecidableEq, Repr

/-- JS `String.prototype.includes`: `s.includes(pat)` holds iff `pat` occurs
as a contiguous substring of `s`. -/
def strIncludes (s pat : String) : Bool :=
  decide (pat.data <:+: s.data)

/-- `const isCodeReviewMessage = message.text.includes(this.prUrl)` from
`CodeReviewChatDeleter.run`. -/
def isCodeReviewMessage (prUrl : String) (m : SlackMessage) : Bool :=
  strIncludes m.text prUrl

/-- The classification predicate of the `messages.filter(...)` in
`CodeReviewChatDeleter.run` (lines 93-107): a message with any subtype is
kept; with an elevated client and a present `reactions` field, a message is
kept when it textually matches the PR URL or carries a `white_check_mark`
reaction; otherwise only on textual match. `hasElevated` models
`this.elevatedClient` being defined. -/
def shouldDelete (hasElevated : Bool) (prUrl : String) (m : SlackMessage) : Bool :=
  if m.subtype.isSome then
    true
  else if hasElevated && m.reactions.isSome then
    isCodeReviewMessage prUrl m
      || (m.reactions.getD []).any (fun r => r.name = "white_check_mark")
  else
    isCodeReviewMessage prUrl m

/-- The reply-expansion loop of `CodeReviewChatDeleter.run` (lines 110-125):
for each queued message with truthy `reply_count`, fetch its reply thread
(`fetch` returns `none` when the call is not ok / has no messages, in which
case the failure is only logged) and push back everything but the first
item, since the first item is the original message. -/
def expandReplies (fetch : String → Option (List SlackMessage)) :
    List SlackMessage → List SlackMessage
  | [] => []
  | m :: rest =>
    (if m.reply_count.getD 0 ≠ 0 then
      match fetch m.ts with
      | some thread => thread.drop 1
      | none => []
    else []) ++ expandReplies fetch rest

/-- The outcome of the deletion loop: the timestamps passed to
`chat.delete` in order, and the timestamps whose delete call succeeded. -/
structure DelOutcome where
  attempted : List String
  deleted : List String
deriving DecidableEq, Repr

/-- The deletion loop of `CodeReviewChatDeleter.run` (lines 132-156): walk
the queued messages in order; skip any whose subtype is `tombstone`
(already deleted server-side); otherwise call `chat.delete`. The whole loop
sits in one `try`: the first throwing delete (modelled by
`deleteOk ts = false`) aborts the remaining iterations, and the exception
is swallowed (only logged). -/
def deletionLoop (deleteOk : String → Bool) : List SlackMessage → DelOutcome
  | [] => ⟨[], []⟩
  | m :: rest =>
    if m.subtype = some MsgSubtype.tombstone then
      deletionLoop deleteOk rest
    else if deleteOk m.ts then
      let o := deletionLoop deleteOk rest
      ⟨m.ts :: o.attempted, m.ts :: o.deleted⟩
    else
      ⟨[m.ts], []⟩

/-- The external world of one `CodeReviewChatDeleter.run` pass, after the
channel is resolved: the `conversations.history` result (`none` when the
response is not ok / has no messages), the `conversations.replies` oracle
keyed by the parent's `ts`, the elevated-client flag, the delete oracle and
the PR URL. -/
structure DeleterEnv where
  history : Option (List SlackMessage)
  replies : String → Option (List SlackMessage)
  deleteOk : String → Bool
  hasElevated : Bool
  prUrl : String

/-- The candidate messages of a pass: `messages.filter(...)`. -/
def candidatesOf (env : DeleterEnv) (messages : List SlackMessage) : List SlackMessage :=
  messages.filter (shouldDelete env.hasElevated env.prUrl)

/-- `messagesToDelete` after `messagesToDelete.push(...replies)`: the
filtered candidates followed by all fetched replies. -/
def toDeleteOf (env : DeleterEnv) (messages : List SlackMessage) : List SlackMessage :=
  candidatesOf env messages ++ expandReplies env.replies (candidatesOf env messages)

/-- `CodeReviewChatDeleter.run` from the fetched history onward: throws
(`Except.error`) when the history fetch is not ok; logs and exits when the
candidate set is empty; otherwise runs the deletion loop, which never
throws out of the pass. -/
def deleterRun (env : DeleterEnv) : Except String DelOutcome :=
  match env.history with
  | none => Except.error "Error getting channel history"
  | some messages =>
    let messagesToDelete := toDeleteOf env messages
    if messagesToDelete.length = 0 then
      Except.ok ⟨[], []⟩
    else
      Except.ok (deletionLoop env.deleteOk messagesToDelete)

/-- `Channel` from the source: `{id, name, is_member}`. -/
structure Channel where
  id : String
  name : String
  is_member : Bool
deriving DecidableEq, Repr

/-- `ConversationsList.response_metadata`: `{next_cursor?: string}`. -/
structure ResponseMetadata where
  next_cursor : Option String
deriving DecidableEq, Repr

/-- `ConversationsList` from the source: a page of channels plus optional
continuation metadata. -/
structure ConversationsList where
  channels : List Channel
  response_metadata : Option ResponseMetadata
deriving DecidableEq, Repr

/-- JS truthiness of `groups?.response_metadata?.next_cursor` for a present
`groups`: the metadata and cursor exist and the cursor is a non-empty
string. -/
def nextCursorTruthy (g : ConversationsList) : Bool :=
  match g.response_metadata with
  | none => false
  | some md =>
    match md.next_cursor with
    | none => false
    | some s => decide (s ≠ "")

/-- The do/while accumulation loop of `listAllMemberships` (lines 307-319),
driven by the successive `conversations.list` results: each iteration either
receives a page (`some g`), appends its channels and continues exactly when
the page's next cursor is truthy, or catches a fetch error (`none`), which
sets `groups = undefined` and therefore ends the loop with what was
accumulated. An exhausted result list means no further fetch result exists. -/
def crawlPages : List (Option ConversationsList) → List Channel
  | [] => []
  | none :: _ => []
  | some g :: rest =>
    g.channels ++ (if nextCursorTruthy g then crawlPages rest else [])

/-- `listAllMemberships` (lines 304-321): accumulate pages, then
`channels.filter((c) => c.is_member)`. -/
def listAllMemberships (results : List (Option ConversationsList)) : List Channel :=
  (crawlPages results).filter (fun c => c.is_member)

/-- `Chatter.getChat` (lines 55-66): resolve the configured channel name
against the fetched memberships; `this.notificationChannel && ...` makes an
empty configured name falsy, so the lookup is skipped and the
channel-not-found error is thrown; otherwise the error is thrown exactly
when `find` misses. On success the channel id is returned. -/
def getChat (notificationChannel : String) (results : List (Option ConversationsList)) :
    Except String String :=
  let memberships := listAllMemberships results
  let codereviewChannel :=
    if notificationChannel = "" then none
    else memberships.find? (fun m => m.name = notificationChannel)
  match codereviewChannel with
  | none => Except.error ("Slack channel not found: " ++ notificationChannel)
  | some c => Except.ok c.id

/-- `PR` from the source. `changed_files`, `additions`, `deletions` are
non-negative counts. -/
structure PR where
  number : Nat
  body : String
  additions : Nat
  deletions : Nat
  changed_files : Nat
  url : String
  owner : String
  draft : Bool
  title : String
deriving DecidableEq, Repr

/-- The fields of `this.issue.getIssue()` the run reads: the author's name,
and whether an assignee / milestone is present. -/
structure IssueData where
  author : String
  assignee : Option String
  milestone : Option Nat
deriving DecidableEq, Repr

/-- One entry of `octokit.pulls.listReviews` as read by the run:
`review.user.login`. -/
structure Review where
  user_login : String
deriving DecidableEq, Repr

/-- JS `String.prototype.replace` with a plain-string pattern, on character
lists: replace the first occurrence of `pat`, or return `s` unchanged when
`pat` does not occur; an empty pattern matches at position 0. -/
def replaceFirstList (pat repl : List Char) : List Char → List Char
  | [] => if pat = [] then repl else []
  | c :: rest =>
    if pat.isPrefixOf (c :: rest) then repl ++ (c :: rest).drop pat.length
    else c :: replaceFirstList pat repl rest

/-- JS `s.replace(pat, repl)` on strings (plain-string pattern, first
occurrence only). -/
def strReplaceFirst (s pat repl : String) : String :=
  ⟨replaceFirstList pat.data repl.data s.data⟩

/-- The backtick character, used by `title.replace(/` + "`" + `/g, '')`. -/
def backtick : Char := Char.ofNat 96

/-- `this.pr.title.replace(/..../g, '')` with the global backtick regex:
every backtick is removed. -/
def cleanTitleOf (title : String) : String :=
  ⟨title.data.filter (fun c => c ≠ backtick)⟩

/-- `Number.prototype.toLocaleString()` for a non-negative integer under the
default en-US locale: decimal digits grouped in threes by commas. -/
def toLocaleString (n : Nat) : String :=
  let rec group : List Char → List Char
    | d1 :: d2 :: d3 :: d4 :: rest =>
      d1 :: d2 :: d3 :: ',' :: group (d4 :: rest)
    | ds => ds
  ⟨(group (toString n).data.reverse).reverse⟩

/-- `changedFilesMessage` (lines 233-234):
a template string of the count and the word `file`, with an `s` appended
exactly when `changed_files > 1`. -/
def changedFilesMessage (changed_files : Nat) : String :=
  toString changed_files ++ " file" ++ (if changed_files > 1 then "s" else "")

/-- `diffMessage` (line 235). -/
def diffMessage (pr : PR) : String :=
  "+" ++ toLocaleString pr.additions ++ " -" ++ toLocaleString pr.deletions
    ++ ", " ++ changedFilesMessage pr.changed_files

/-- A button element of the `actions` block: its label text, optional
style, `action_id` and `url`. -/
structure ButtonElement where
  text : String
  style : Option String
  action_id : String
  url : String
deriving DecidableEq, Repr

/-- The `KnownBlock`s the run builds: a `section` block with mrkdwn text,
and an `actions` block with button elements. -/
inductive Block where
  | sectionBlock (text : String)
  | actionsBlock (elements : List ButtonElement)
deriving DecidableEq, Repr

/-- The block list composed by `CodeReviewChat.run` (lines 232-280): the
header section, then the two link buttons (vscode.dev variant of the PR
URL, and the canonical GitHub URL). -/
def buildBlocks (pr : PR) (repo_full_name : String) : List Block :=
  let cleanTitle := cleanTitleOf pr.title
  let repoMessage :=
    if repo_full_name = "microsoft/vscode" then ""
    else " in " ++ repo_full_name
  let githubUrl := pr.url
  let vscodeDevUrl := strReplaceFirst pr.url "https://" "https://insiders.vscode.dev/"
  [Block.sectionBlock
      (cleanTitle ++ " by " ++ pr.owner ++ repoMessage ++ ": `" ++ diffMessage pr ++ "`"),
    Block.actionsBlock
      [⟨"Open in vscode.dev", some "primary", "vscodedev", vscodeDevUrl⟩,
        ⟨"Open on github.com", none, "github", githubUrl⟩]]

/-- The side effects of one `CodeReviewChat.run`: the assignee added (if
any), the milestone set (if any), and the chat message posted (text and
blocks, if any). -/
structure RunEffects where
  assigneeAdded : Option String
  milestoneSet : Option Nat
  posted : Option (String × List Block)
deriving DecidableEq, Repr

/-- `CodeReviewChat.run` (lines 178-288) as a function of its external
reads: the PR payload, the issue data, the author's write access, the
current repo milestone, the concurrently fetched review list and
review-request user list, and the repository full name. Draft PRs and
non-team authors cause a silent no-op; otherwise the assignee task runs
when unassigned, the milestone task when no milestone is set and a current
one exists, and the posting task short-circuits when a non-author review or
any requested reviewer exists. -/
def codeReviewChatRun (pr : PR) (data : IssueData) (hasWriteAccess : Bool)
    (currentMilestone : Option Nat) (existingReviews : List Review)
    (requestedUsers : List String) (repo_full_name : String) : RunEffects :=
  if pr.draft then ⟨none, none, none⟩
  else if !hasWriteAccess then ⟨none, none, none⟩
  else
    let assigneeAdded := if data.assignee.isNone then some data.author else none
    let milestoneSet := if data.milestone.isNone then currentMilestone else none
    let hasExistingReview := existingReviews.any (fun r => r.user_login ≠ data.author)
    let hasExisting := hasExistingReview || requestedUsers.length ≠ 0
    let posted :=
      if hasExisting then none
      else some ("New Pull Request from " ++ pr.owner, buildBlocks pr repo_full_name)
    ⟨assigneeAdded, milestoneSet, posted⟩

/-- The URLs of the action controls of a block list, in order. -/
def actionUrls (blocks : List Block) : List String :=
  blocks.flatMap fun b =>
    match b with
    | Block.sectionBlock _ => []
    | Block.actionsBlock elements => elements.map (fun e => e.url)

end CRC

namespace CRCTest

/-- Fixture: the PR URL reconciled in the concrete scenarios. -/
def prUrl20 : String := "https://github.com/microsoft/vscode/pull/123"

/-- Fixture: the one announcement message matching the PR URL, with two
replies. -/
def prMsg20 : CRC.SlackMessage :=
  ⟨none, "please review https://github.com/microsoft/vscode/pull/123", some 2, "1700.0001", none⟩

/-- Fixture: a 20-message history where only `prMsg20` matches the PR URL. -/
def history20 : List CRC.SlackMessage :=
  ((List.range 19).map (fun i => ⟨none, "hello world", none, toString i, none⟩)) ++ [prMsg20]

/-- Fixture: the reply thread of `prMsg20` — the root then its 2 replies. -/
def thread20 : List CRC.SlackMessage :=
  [prMsg20, ⟨none, "reply one", none, "r1", none⟩, ⟨none, "reply two", none, "r2", none⟩]

/-- Fixture: a reconciliation environment over `history20` with no elevated
client and all deletes succeeding. -/
def env20 : CRC.DeleterEnv :=
  ⟨some history20, fun ts => if ts = prMsg20.ts then some thread20 else none,
    fun _ => true, false, prUrl20⟩

/-- Fixture: a tombstoned announcement with one reply. -/
def tomb4 : CRC.SlackMessage :=
  ⟨some CRC.MsgSubtype.tombstone, "gone", some 1, "t1", none⟩

/-- Fixture: the reply under `tomb4`. -/
def reply4 : CRC.SlackMessage := ⟨none, "re", none, "t2", none⟩

/-- Fixture: a reconciliation environment whose history is one tombstone
with a reply. -/
def env4 : CRC.DeleterEnv :=
  ⟨some [tomb4], fun ts => if ts = "t1" then some [tomb4, reply4] else none,
    fun _ => true, false, "u"⟩

/-- Fixture: three candidate messages (all matching the URL `u`) where the
delete of the second one throws. -/
def env7 : CRC.DeleterEnv :=
  ⟨some [⟨none, "m1 u", none, "1", none⟩, ⟨none, "m2 u", none, "2", none⟩,
      ⟨none, "m3 u", none, "3", none⟩],
    fun _ => none, fun ts => ts ≠ "2", false, "u"⟩

/-- Fixture: one candidate with replies whose thread fetch fails. -/
def env8 : CRC.DeleterEnv :=
  ⟨some [⟨none, "x u", some 3, "10", none⟩], fun _ => none, fun _ => true, false, "u"⟩

end CRCTest

/-- Replacing a plain-string pattern that starts the string substitutes the
replacement for the pattern and keeps the remainder. -/
theorem replaceFirstList_startsWith (pat repl r : List Char) (h : pat ≠ []) :
    CRC.replaceFirstList pat repl (pat ++ r) = repl ++ r := by
  cases pat with
  | nil => exact absurd rfl h
  | cons c cs =>
    have hpre : (c :: cs).isPrefixOf ((c :: cs) ++ r) = true :=
      List.isPrefixOf_iff_prefix.mpr (List.prefix_append _ _)
    rw [List.cons_append, CRC.replaceFirstList, ← List.cons_append, hpre]
    simp [List.drop_left]

/-- String-level version of `replaceFirstList_startsWith`. -/
theorem strReplaceFirst_startsWith (pat repl r : String) (h : pat.data ≠ []) :
    CRC.strReplaceFirst (pat ++ r) pat repl = repl ++ r := by
  show String.mk (CRC.replaceFirstList pat.data repl.data (pat ++ r).data) = repl ++ r
  rw [String.data_append, replaceFirstList_startsWith _ _ _ h, ← String.data_append]

/-- C1: a fetched history message is a deletion candidate iff its subtype is
non-empty, or its text contains the PR URL, or an elevated client is
configured and it bears a `white_check_mark` reaction; in particular with no
elevated client a `white_check_mark` reaction alone does not qualify. -/
theorem crc_c1 (hasElevated : Bool) (prUrl : String) (m : CRC.SlackMessage) :
    CRC.shouldDelete hasElevated prUrl m = true ↔
      (m.subtype.isSome = true
        ∨ CRC.strIncludes m.text prUrl = true
        ∨ (hasElevated = true
            ∧ (m.reactions.getD []).any (fun r => r.name = "white_check_mark") = true)) := by
  unfold CRC.shouldDelete CRC.isCodeReviewMessage
  rcases m with ⟨st, text, rc, ts, reactions⟩
  rcases st with _ | st <;> rcases reactions with _ | rs <;> rcases hasElevated with _ | _ <;>
    simp [Option.getD]

/-- C10: the composed diff summary pluralizes `file` only when
`changed_files` is strictly greater than 1; for `changed_files ≤ 1` the
singular is used, so `changed_files = 0` yields `0 file`. -/
theorem crc_c10 :
    (∀ n : Nat, n ≤ 1 → CRC.changedFilesMessage n = toString n ++ " file")
      ∧ (∀ n : Nat, 1 < n → CRC.changedFilesMessage n = toString n ++ " files")
      ∧ CRC.changedFilesMessage 0 = "0 file" := by
  refine ⟨fun n h => ?_, fun n h => ?_, by decide⟩
  · simp [CRC.changedFilesMessage, Nat.not_lt.mpr h]
  · simp only [CRC.changedFilesMessage, if_pos h, String.append_assoc]
    rfl

/-- Witness for C10 at `changed_files = 0`. -/
theorem crc_c10_witness : CRC.changedFilesMessage 0 = toString 0 ++ " file" :=
  crc_c10.1 0 (by decide)

/-- C9: in every posted announcement, the first action control's URL is the
PR URL with its leading scheme segment `https://` replaced by the
web-editor host prefix `https://insiders.vscode.dev/` (the remainder of the
URL preserved), and the second action control's URL is the PR's canonical
URL unchanged. -/
theorem crc_c9 (pr : CRC.PR) (data : CRC.IssueData) (hasWriteAccess : Bool)
    (currentMilestone : Option Nat) (existingReviews : List CRC.Review)
    (requestedUsers : List String) (repo_full_name : String) (rest : String)
    (p : String × List CRC.Block)
    (hurl : pr.url = "https://" ++ rest)
    (hp : (CRC.codeReviewChatRun pr data hasWriteAccess currentMilestone existingReviews
        requestedUsers repo_full_name).posted = some p) :
    CRC.actionUrls p.2 = ["https://insiders.vscode.dev/" ++ rest, pr.url] := by
  unfold CRC.codeReviewChatRun at hp
  split at hp
  · simp at hp
  · split at hp
    · simp at hp
    · simp only at hp
      split at hp
      · simp at hp
      · have hblocks : p.2 = CRC.buildBlocks pr repo_full_name := by
          have := Option.some.inj hp
          rw [← this]
        rw [hblocks]
        unfold CRC.buildBlocks CRC.actionUrls
        simp only [List.flatMap_cons, List.flatMap_nil, List.map_cons, List.map_nil,
          List.nil_append, List.append_nil]
        rw [hurl, strReplaceFirst_startsWith _ _ _ (by decide)]

/-- Witness for C9: a concrete non-draft PR by a team author with no
reviews posts an announcement whose action URLs are as stated. -/
theorem crc_c9_witness :
    CRC.actionUrls
        ([CRC.Block.sectionBlock ("fix crash by alice: `" ++ CRC.diffMessage
          ⟨7, "", 5, 0, 1, "https://github.com/microsoft/vscode/pull/7", "alice", false,
            "fix crash"⟩ ++ "`"),
          CRC.Block.actionsBlock
            [⟨"Open in vscode.dev", some "primary", "vscodedev",
              "https://insiders.vscode.dev/github.com/microsoft/vscode/pull/7"⟩,
              ⟨"Open on github.com", none, "github",
                "https://github.com/microsoft/vscode/pull/7"⟩]])
      = ["https://insiders.vscode.dev/" ++ "github.com/microsoft/vscode/pull/7",
          "https://github.com/microsoft/vscode/pull/7"] :=
  crc_c9 ⟨7, "", 5, 0, 1, "https://github.com/microsoft/vscode/pull/7", "alice", false,
      "fix crash"⟩
    ⟨"alice", none, none⟩ true none [] [] "microsoft/vscode"
    "github.com/microsoft/vscode/pull/7" _ rfl rfl

/-- C3: a non-draft PR by a write-access author that already has a
non-author review (the author's own reviews excluded) or any pending
reviewer request still gets the assignment and milestone side effects when
applicable, but no chat message is posted. -/
theorem crc_c3 (pr : CRC.PR) (data : CRC.IssueData)
    (currentMilestone : Option Nat) (existingReviews : List CRC.Review)
    (requestedUsers : List String) (repo_full_name : String)
    (hdraft : pr.draft = false)
    (hexisting : existingReviews.any (fun r => r.user_login ≠ data.author) = true
      ∨ requestedUsers ≠ []) :
    CRC.codeReviewChatRun pr data true currentMilestone existingReviews
        requestedUsers repo_full_name
      = ⟨if data.assignee.isNone then some data.author else none,
          if data.milestone.isNone then currentMilestone else none,
          none⟩ := by
  have hex : (existingReviews.any (fun r => r.user_login ≠ data.author)
      || requestedUsers.length ≠ 0) = true := by
    rcases hexisting with h | h
    · rw [h, Bool.true_or]
    · cases requestedUsers with
      | nil => exact absurd rfl h
      | cons a l => simp
  unfold CRC.codeReviewChatRun
  rw [hdraft]
  simp only [Bool.false_eq_true, if_false, Bool.not_true, hex, if_pos rfl]
  rfl

/-- Witness for C3: one existing review by another user suppresses the
post while the author is assigned and the current milestone is set. -/
theorem crc_c3_witness :
    CRC.codeReviewChatRun
        ⟨7, "", 5, 0, 1, "https://github.com/microsoft/vscode/pull/7", "alice", false, "t"⟩
        ⟨"alice", none, none⟩ true (some 42) [⟨"bob"⟩] [] "microsoft/vscode"
      = ⟨some "alice", some 42, none⟩ :=
  crc_c3 ⟨7, "", 5, 0, 1, "https://github.com/microsoft/vscode/pull/7", "alice", false, "t"⟩
    ⟨"alice", none, none⟩ (some 42) [⟨"bob"⟩] [] "microsoft/vscode" rfl
    (Or.inl (by decide))

/-- Pages whose cursors are all truthy are crawled completely, and the
crawl continues into the remaining results. -/
theorem crawlPages_all_truthy (pages : List CRC.ConversationsList)
    (h : ∀ g ∈ pages, CRC.nextCursorTruthy g = true)
    (rest : List (Option CRC.ConversationsList)) :
    CRC.crawlPages (pages.map some ++ rest)
      = pages.flatMap (fun g => g.channels) ++ CRC.crawlPages rest := by
  induction pages with
  | nil => simp
  | cons g pages ih =>
    have hg : CRC.nextCursorTruthy g = true := h g (List.mem_cons_self g pages)
    have htail : ∀ x ∈ pages, CRC.nextCursorTruthy x = true :=
      fun x hx => h x (List.mem_cons_of_mem g hx)
    simp [CRC.crawlPages, hg, ih htail, List.append_assoc]

/-- C2: when every page but the last carries a continuation cursor and the
last page's cursor is empty, the membership listing returns exactly the
concatenation of all pages' entries filtered to `is_member = true` — no
entry added, dropped, or reordered. -/
theorem crc_c2 (pages : List CRC.ConversationsList) (last : CRC.ConversationsList)
    (hmid : ∀ g ∈ pages, CRC.nextCursorTruthy g = true)
    (hlast : CRC.nextCursorTruthy last = false) :
    CRC.listAllMemberships ((pages ++ [last]).map some)
      = ((pages ++ [last]).flatMap (fun g => g.channels)).filter (fun c => c.is_member) := by
  unfold CRC.listAllMemberships
  rw [List.map_append, List.map_singleton, crawlPages_all_truthy pages hmid [some last]]
  simp [CRC.crawlPages, hlast, List.flatMap_append]

/-- Witness for C2 on two concrete pages. -/
theorem crc_c2_witness :
    CRC.listAllMemberships
        (([⟨[⟨"C1", "dev", true⟩, ⟨"C2", "random", false⟩], some ⟨some "cur"⟩⟩,
            (⟨[⟨"C3", "codereview", true⟩], some ⟨none⟩⟩ : CRC.ConversationsList)]
          : List CRC.ConversationsList).map some)
      = [⟨"C1", "dev", true⟩, ⟨"C3", "codereview", true⟩] := by
  have := crc_c2 [⟨[⟨"C1", "dev", true⟩, ⟨"C2", "random", false⟩], some ⟨some "cur"⟩⟩]
    ⟨[⟨"C3", "codereview", true⟩], some ⟨none⟩⟩ (by decide) (by decide)
  simpa using this

/-- C6 (amended): when a page fetch errors, pagination stops there without
retrying or raising — the channels accumulated from the earlier pages are
used — and the channel-not-found error is raised exactly when the
configured name is empty (the source's truthiness guard) or no accumulated
member channel bears the configured name. -/
theorem crc_c6 (pages : List CRC.ConversationsList)
    (hmid : ∀ g ∈ pages, CRC.nextCursorTruthy g = true)
    (rest : List (Option CRC.ConversationsList)) (name : String) :
    CRC.listAllMemberships (pages.map some ++ none :: rest)
        = (pages.flatMap (fun g => g.channels)).filter (fun c => c.is_member)
      ∧ ((∃ e, CRC.getChat name (pages.map some ++ none :: rest) = Except.error e) ↔
          (name = ""
            ∨ ∀ c ∈ CRC.listAllMemberships (pages.map some ++ none :: rest),
                c.name ≠ name)) := by
  have hmem : CRC.listAllMemberships (pages.map some ++ none :: rest)
      = (pages.flatMap (fun g => g.channels)).filter (fun c => c.is_member) := by
    unfold CRC.listAllMemberships
    rw [crawlPages_all_truthy pages hmid (none :: rest)]
    simp [CRC.crawlPages]
  refine ⟨hmem, ?_⟩
  rcases eq_or_ne name "" with hn | hn
  · subst hn
    constructor
    · intro _
      exact Or.inl rfl
    · intro _
      exact ⟨_, rfl⟩
  · simp only [CRC.getChat, if_neg hn]
    cases hfind : (CRC.listAllMemberships (pages.map some ++ none :: rest)).find?
        (fun m => m.name = name) with
    | none =>
      simp only [hfind]
      constructor
      · intro _
        refine Or.inr fun c hc => ?_
        have := List.find?_eq_none.mp hfind c hc
        simpa using this
      · intro _
        exact ⟨_, rfl⟩
    | some c =>
      simp only [hfind]
      constructor
      · rintro ⟨e, he⟩
        exact absurd he (by simp)
      · rintro (h | h)
        · exact absurd h hn
        · have hc := List.mem_of_find?_eq_some hfind
          have hname : (c.name = name) := by
            have := List.find?_some hfind
            simpa using this
          exact absurd hname (h c hc)

/-- Witness for C6 (amended): a concrete run whose second page fetch fails
keeps the first page's member channels. -/
theorem crc_c6_witness :
    CRC.listAllMemberships
        (([⟨[⟨"C1", "dev", true⟩, ⟨"C2", "random", false⟩], some ⟨some "cur"⟩⟩]
            : List CRC.ConversationsList).map some ++ none :: [])
      = [⟨"C1", "dev", true⟩] := by
  have := (crc_c6 [⟨[⟨"C1", "dev", true⟩, ⟨"C2", "random", false⟩], some ⟨some "cur"⟩⟩]
    (by decide) [] "dev").1
  simpa using this

/-- C6 counterexample: with the configured name `""` and an accumulated
member channel named `""`, the code still raises the channel-not-found
error (the `this.notificationChannel && ...` truthiness guard skips the
lookup), so the claim that the error is raised only when no accumulated
member channel matches the configured name is false as stated. -/
theorem crc_c6_counterexample :
    CRC.getChat "" [some ⟨[⟨"C9", "", true⟩], some ⟨some "cur"⟩⟩, none]
        = Except.error "Slack channel not found: "
      ∧ (CRC.listAllMemberships [some ⟨[⟨"C9", "", true⟩], some ⟨some "cur"⟩⟩, none]).any
          (fun c => c.name = "") = true :=
  ⟨rfl, rfl⟩

/-- Reply expansion distributes over appending candidate lists. -/
theorem expandReplies_append (fetch : String → Option (List CRC.SlackMessage))
    (l1 l2 : List CRC.SlackMessage) :
    CRC.expandReplies fetch (l1 ++ l2)
      = CRC.expandReplies fetch l1 ++ CRC.expandReplies fetch l2 := by
  induction l1 with
  | nil => simp [CRC.expandReplies]
  | cons m rest ih => simp [CRC.expandReplies, ih, List.append_assoc]

/-- The deletion loop behaves exactly as if the tombstoned messages were
absent: they are never passed to the delete call. -/
theorem deletionLoop_skips_tombstones (del : String → Bool) (l : List CRC.SlackMessage) :
    CRC.deletionLoop del l
      = CRC.deletionLoop del
          (l.filter (fun x => x.subtype ≠ some CRC.MsgSubtype.tombstone)) := by
  induction l with
  | nil => rfl
  | cons x xs ih =>
    rcases eq_or_ne x.subtype (some CRC.MsgSubtype.tombstone) with hx | hx
    · simp [CRC.deletionLoop, hx, ih]
    · simp [CRC.deletionLoop, hx, ih]

/-- Once the history fetch succeeded, the reconciliation pass never fails:
both the empty-candidate exit and the deletion loop return normally. -/
theorem deleterRun_isOk (env : CRC.DeleterEnv) (msgs : List CRC.SlackMessage)
    (hh : env.history = some msgs) : (CRC.deleterRun env).isOk = true := by
  unfold CRC.deleterRun
  rw [hh]
  dsimp only
  split <;> rfl

/-- A failing delete in the middle of the queue: everything before it (bar
tombstones) was attempted and deleted, the failing message was attempted,
and nothing after it was touched. -/
theorem deletionLoop_halts (del : String → Bool) (l1 l2 : List CRC.SlackMessage)
    (m : CRC.SlackMessage)
    (hmt : m.subtype ≠ some CRC.MsgSubtype.tombstone)
    (hfail : del m.ts = false)
    (hok : ∀ x ∈ l1, x.subtype ≠ some CRC.MsgSubtype.tombstone → del x.ts = true) :
    CRC.deletionLoop del (l1 ++ m :: l2)
      = ⟨(l1.filter (fun x => x.subtype ≠ some CRC.MsgSubtype.tombstone)).map
            (fun x => x.ts) ++ [m.ts],
          (l1.filter (fun x => x.subtype ≠ some CRC.MsgSubtype.tombstone)).map
            (fun x => x.ts)⟩ := by
  induction l1 with
  | nil => simp [CRC.deletionLoop, hmt, hfail]
  | cons x xs ih =>
    have htail : ∀ y ∈ xs, y.subtype ≠ some CRC.MsgSubtype.tombstone → del y.ts = true :=
      fun y hy => hok y (List.mem_cons_of_mem x hy)
    rcases eq_or_ne x.subtype (some CRC.MsgSubtype.tombstone) with hx | hx
    · simp [CRC.deletionLoop, hx, ih htail]
    · have hdx : del x.ts = true := hok x (List.mem_cons_self x xs) hx
      simp [CRC.deletionLoop, hx, hdx, ih htail]

/-- C4: a history message with subtype `tombstone` is never passed to the
delete call — the deletion loop is unchanged by removing tombstones from
its input — while the replies fetched for it (because its reply count is
positive) are still part of the deletion set. -/
theorem crc_c4 (env : CRC.DeleterEnv) (msgs : List CRC.SlackMessage)
    (_hh : env.history = some msgs) (m : CRC.SlackMessage) (hm : m ∈ msgs)
    (ht : m.subtype = some CRC.MsgSubtype.tombstone)
    (hrc : m.reply_count.getD 0 ≠ 0)
    (thread : List CRC.SlackMessage) (hf : env.replies m.ts = some thread) :
    CRC.deletionLoop env.deleteOk (CRC.toDeleteOf env msgs)
        = CRC.deletionLoop env.deleteOk
            ((CRC.toDeleteOf env msgs).filter
              (fun x => x.subtype ≠ some CRC.MsgSubtype.tombstone))
      ∧ ∀ r ∈ thread.drop 1, r ∈ CRC.toDeleteOf env msgs := by
  refine ⟨deletionLoop_skips_tombstones _ _, ?_⟩
  intro r hr
  have hcand : m ∈ CRC.candidatesOf env msgs := by
    rw [CRC.candidatesOf, List.mem_filter]
    refine ⟨hm, ?_⟩
    rw [CRC.shouldDelete]
    simp [ht]
  obtain ⟨s, t, hst⟩ := List.append_of_mem hcand
  rw [CRC.toDeleteOf]
  refine List.mem_append_right _ ?_
  rw [hst, expandReplies_append]
  refine List.mem_append_right _ ?_
  rw [CRC.expandReplies, if_pos hrc, hf]
  exact List.mem_append_left _ hr

/-- Witness for C4: the reply of a tombstoned parent is in the deletion
set. -/
theorem crc_c4_witness : CRCTest.reply4 ∈ CRC.toDeleteOf CRCTest.env4 [CRCTest.tomb4] :=
  (crc_c4 CRCTest.env4 [CRCTest.tomb4] rfl CRCTest.tomb4 (List.mem_singleton.mpr rfl)
      rfl (by decide) [CRCTest.tomb4, CRCTest.reply4] rfl).2 CRCTest.reply4 (by decide)

/-- C5: a deletion candidate with positive reply count whose thread fetch
succeeds contributes every thread message except the first (the root) to
the candidate set; concretely, over a 20-message history where exactly one
message matches the PR URL and has reply count 2, exactly the matching
message and its 2 replies are deleted. -/
theorem crc_c5 :
    (∀ (fetch : String → Option (List CRC.SlackMessage))
      (l1 l2 : List CRC.SlackMessage) (m : CRC.SlackMessage)
      (thread : List CRC.SlackMessage),
      m.reply_count.getD 0 ≠ 0 → fetch m.ts = some thread →
      CRC.expandReplies fetch (l1 ++ m :: l2)
        = CRC.expandReplies fetch l1 ++ (thread.drop 1 ++ CRC.expandReplies fetch l2))
      ∧ CRC.deleterRun CRCTest.env20
          = Except.ok ⟨["1700.0001", "r1", "r2"], ["1700.0001", "r1", "r2"]⟩
      ∧ CRCTest.history20.length = 20 := by
  refine ⟨?_, rfl, rfl⟩
  intro fetch l1 l2 m thread hrc hf
  rw [expandReplies_append]
  congr 1
  rw [CRC.expandReplies, if_pos hrc, hf]

/-- Witness for C5's universally quantified part on a concrete thread. -/
theorem crc_c5_witness :
    CRC.expandReplies
        (fun ts => if ts = "a" then
          some [⟨none, "t", some 1, "a", none⟩, ⟨none, "rr", none, "b", none⟩] else none)
        ([] ++ (⟨none, "t", some 1, "a", none⟩ : CRC.SlackMessage) :: [])
      = CRC.expandReplies
          (fun ts => if ts = "a" then
            some [⟨none, "t", some 1, "a", none⟩, ⟨none, "rr", none, "b", none⟩] else none) []
        ++ (([⟨none, "t", some 1, "a", none⟩, ⟨none, "rr", none, "b", none⟩].drop 1)
          ++ CRC.expandReplies
            (fun ts => if ts = "a" then
              some [⟨none, "t", some 1, "a", none⟩, ⟨none, "rr", none, "b", none⟩] else none)
            []) :=
  crc_c5.1 _ [] [] ⟨none, "t", some 1, "a", none⟩
    [⟨none, "t", some 1, "a", none⟩, ⟨none, "rr", none, "b", none⟩] (by decide) rfl

/-- C7: when a delete call throws mid-pass, the reconciler attempts no
further deletes, keeps the deletions already performed, and returns
normally — the pass yields `Except.ok` with the pre-failure deletions
recorded and nothing from the remainder of the queue. -/
theorem crc_c7 (env : CRC.DeleterEnv) (msgs : List CRC.SlackMessage)
    (hh : env.history = some msgs) (l1 l2 : List CRC.SlackMessage)
    (m : CRC.SlackMessage)
    (hsplit : CRC.toDeleteOf env msgs = l1 ++ m :: l2)
    (hmt : m.subtype ≠ some CRC.MsgSubtype.tombstone)
    (hfail : env.deleteOk m.ts = false)
    (hok : ∀ x ∈ l1, x.subtype ≠ some CRC.MsgSubtype.tombstone → env.deleteOk x.ts = true) :
    CRC.deleterRun env = Except.ok
      ⟨(l1.filter (fun x => x.subtype ≠ some CRC.MsgSubtype.tombstone)).map
          (fun x => x.ts) ++ [m.ts],
        (l1.filter (fun x => x.subtype ≠ some CRC.MsgSubtype.tombstone)).map
          (fun x => x.ts)⟩ := by
  unfold CRC.deleterRun
  rw [hh]
  dsimp only
  rw [hsplit]
  have hne : (l1 ++ m :: l2).length ≠ 0 := by simp
  rw [if_neg hne, deletionLoop_halts env.deleteOk l1 l2 m hmt hfail hok]

/-- Witness for C7: the delete of message 2 of 3 fails; message 1 stays
deleted, message 3 is never attempted, and the pass returns normally. -/
theorem crc_c7_witness : CRC.deleterRun CRCTest.env7 = Except.ok ⟨["1", "2"], ["1"]⟩ := by
  have := crc_c7 CRCTest.env7
    [⟨none, "m1 u", none, "1", none⟩, ⟨none, "m2 u", none, "2", none⟩,
      ⟨none, "m3 u", none, "3", none⟩]
    rfl [⟨none, "m1 u", none, "1", none⟩] [⟨none, "m3 u", none, "3", none⟩]
    ⟨none, "m2 u", none, "2", none⟩ rfl (by decide) rfl (by decide)
  simpa using this

/-- C8: a failing reply-thread fetch only omits that thread's replies from
the deletion set — the other candidates and their replies are unaffected —
and the reconciliation pass still completes normally. -/
theorem crc_c8 (env : CRC.DeleterEnv) (msgs : List CRC.SlackMessage)
    (hh : env.history = some msgs) (l1 l2 : List CRC.SlackMessage)
    (m : CRC.SlackMessage)
    (hsplit : CRC.candidatesOf env msgs = l1 ++ m :: l2)
    (hrc : m.reply_count.getD 0 ≠ 0)
    (hfail : env.replies m.ts = none) :
    (CRC.deleterRun env).isOk = true
      ∧ CRC.toDeleteOf env msgs
          = (l1 ++ m :: l2)
            ++ (CRC.expandReplies env.replies l1 ++ CRC.expandReplies env.replies l2) := by
  refine ⟨deleterRun_isOk env msgs hh, ?_⟩
  rw [CRC.toDeleteOf, hsplit, expandReplies_append]
  congr 1
  rw [CRC.expandReplies, if_pos hrc, hfail]
  simp

/-- Witness for C8: the lone candidate's thread fetch fails; the candidate
is still deleted and the pass is not fatal. -/
theorem crc_c8_witness :
    (CRC.deleterRun CRCTest.env8).isOk = true
      ∧ CRC.toDeleteOf CRCTest.env8 [⟨none, "x u", some 3, "10", none⟩]
          = [⟨none, "x u", some 3, "10", none⟩] := by
  have := crc_c8 CRCTest.env8 [⟨none, "x u", some 3, "10", none⟩] rfl []
    [] ⟨none, "x u", some 3, "10", none⟩ rfl (by decide) rfl
  simpa using this
